import Mathlib

/-
Verification of the acqua aquarium engine: a shallow embedding of the Go
core (internal/aquarium/fish.go, the aquarium Manager, the UpdateBuffer
command emitter and the connection handler) together with proofs of the
behavioural properties stated in the specification.

Go float64 values are modelled as rationals, Go int as Lean Int.  Go's
float-to-int conversion truncates toward zero (ratTrunc below) and Go's
percent operator on int is the truncated remainder (Int.tmod).  Calls to
the random number generator are made explicit parameters of the modelled
functions.
-/

/-- Go float-to-int conversion: truncation toward zero. -/
def ratTrunc (q : ℚ) : ℤ :=
  Int.tdiv q.num (q.den : ℤ)

/-- TerminalConfig from the aquarium Manager: character grid and cell pixel size. -/
structure TerminalConfig where
  Columns : ℤ
  Rows : ℤ
  CellWidth : ℤ
  CellHeight : ℤ
deriving DecidableEq, Repr

/-- A bubble sub-entity of a fish. -/
structure Bubble where
  X : ℚ
  Y : ℚ
  Char : String
  Age : ℕ
  PrevCol : ℤ
  PrevRow : ℤ
deriving DecidableEq, Repr

/-- The fish entity. -/
structure Fish where
  ID : ℕ
  OwnerID : ℕ
  PlacementID : ℕ
  PosX : ℚ
  PosY : ℚ
  VelX : ℚ
  VelY : ℚ
  BobbingTime : ℚ
  Bubbles : List Bubble
  LastImageID : ℤ
  BubblesToClear : List (ℤ × ℤ)
  Username : String
deriving DecidableEq, Repr

/-- Sprite size constants from fish.go. -/
def ImagePixelWidth : ℤ := 64

def ImagePixelHeight : ℤ := 36

/-- The bubble glyph alphabet of fish.go. -/
def bubbleChars : List String := ["°", "o", "O", "•"]

/-- The usable pixel height computed inside Fish.Update: the canvas pixel
height minus the floor-tile band and the status bar, with the tile height
computed in float arithmetic exactly as the Go code does. -/
def usableHeightQ (cfg : TerminalConfig) : ℚ :=
  let termPixelHeight : ℚ := ((cfg.Rows * cfg.CellHeight : ℤ) : ℚ)
  let ch : ℚ := (cfg.CellHeight : ℚ)
  let tileHeight : ℚ := (48 + ch - 1) / ch
  let floorHeight : ℚ := tileHeight * ch
  let statusHeight : ℚ := ch
  termPixelHeight - floorHeight - statusHeight

/-- Fish.spawnBubble: append one bubble above the fish centre; the glyph
index is the explicit stand-in for the call to the random generator. -/
def spawnBubble (f : Fish) (glyphIdx : Fin 4) : Fish :=
  { f with Bubbles := f.Bubbles ++
      [{ X := f.PosX + 32, Y := f.PosY - 2,
         Char := bubbleChars.get (glyphIdx.cast rfl), Age := 0,
         PrevCol := 0, PrevRow := 0 }] }

/-- Fish.updateBubbles: move every bubble up, keep it while its y stays
nonnegative, and record the previous cell of each dropped bubble so the
render step can clear it. -/
def updateBubbles (f : Fish) (dt : ℚ) : Fish :=
  let step := f.Bubbles.foldl
    (fun (acc : List Bubble × List (ℤ × ℤ)) b =>
      let y2 := b.Y - 240 * dt
      if 0 ≤ y2 then
        (acc.1 ++ [{ b with Y := y2, Age := b.Age + 1 }], acc.2)
      else if 0 < b.PrevCol ∧ 0 < b.PrevRow then
        (acc.1, acc.2 ++ [(b.PrevRow, b.PrevCol)])
      else
        (acc.1, acc.2))
    ([], [])
  { f with Bubbles := step.1, BubblesToClear := f.BubblesToClear ++ step.2 }

/-- Fish.Update: positional integration, elastic wall reflection with exact
clamping, bob phase advance, probabilistic bubble spawn (the draw of
rand.Float64 is the explicit parameter spawnRnd) and bubble motion. -/
def update (f : Fish) (cfg : TerminalConfig) (dt spawnRnd : ℚ) (glyphIdx : Fin 4) : Fish :=
  let termPixelWidth : ℚ := ((cfg.Columns * cfg.CellWidth : ℤ) : ℚ)
  let usable : ℚ := usableHeightQ cfg
  let x1 := f.PosX + f.VelX * dt
  let y1 := f.PosY + f.VelY * dt
  let vx := if x1 + 64 > termPixelWidth then -|f.VelX|
            else if x1 < 0 then |f.VelX| else f.VelX
  let x2 := if x1 + 64 > termPixelWidth then termPixelWidth - 64
            else if x1 < 0 then 0 else x1
  let vy := if y1 + 36 > usable then -|f.VelY|
            else if y1 < 0 then |f.VelY| else f.VelY
  let y2 := if y1 + 36 > usable then usable - 36
            else if y1 < 0 then 0 else y1
  let f1 := { f with PosX := x2, PosY := y2, VelX := vx, VelY := vy,
                     BobbingTime := f.BobbingTime + (24/5) * dt }
  let f2 := if spawnRnd < (3/50) * dt then spawnBubble f1 glyphIdx else f1
  updateBubbles f2 dt

/-- The stepped bob offset of Fish.Render and Fish.CheckCollision: Go
truncates the phase accumulator to int and takes the truncated remainder
by 4; the switch leaves the offset at 0 on any value outside 0..3. -/
def bobOffset (t : ℚ) : ℚ :=
  let step := (ratTrunc t).tmod 4
  if step = 0 then 0
  else if step = 1 then 6
  else if step = 2 then 12
  else if step = 3 then 6
  else 0

/-- Fish.CheckCollision: bounding-box test against the rendered rectangle,
including the current bob offset. -/
def checkCollision (f : Fish) (mouseX mouseY : ℤ) : Bool :=
  let finalY := f.PosY + bobOffset f.BobbingTime
  decide (ratTrunc f.PosX ≤ mouseX) && decide (mouseX ≤ ratTrunc f.PosX + ImagePixelWidth) &&
  decide (ratTrunc finalY ≤ mouseY) && decide (mouseY ≤ ratTrunc finalY + ImagePixelHeight)

/-- One emitted terminal command of the UpdateBuffer: cursor-addressed cell
clear, cursor-addressed text, bare cursor move, Kitty graphics placement,
and Kitty graphics placement deletion. -/
inductive Cmd where
  | clearCell (row col : ℤ)
  | text (row col : ℤ) (s : String)
  | cursorMove (row col : ℤ)
  | placement (imageID : ℤ) (placementID : ℕ) (width height xOffset yOffset : ℤ)
  | deletePlacement (imageID : ℤ) (placementID : ℕ)
deriving DecidableEq, Repr

/-- The byte string each UpdateBuffer command formats to. -/
def cmdString : Cmd → String
  | .clearCell row col => "\x1b[" ++ toString row ++ ";" ++ toString col ++ "H "
  | .text row col s => "\x1b[" ++ toString row ++ ";" ++ toString col ++ "H" ++ s
  | .cursorMove row col => "\x1b[" ++ toString row ++ ";" ++ toString col ++ "H"
  | .placement imageID placementID width height xOffset yOffset =>
      "\x1b_Ga=p,i=" ++ toString imageID ++ ",p=" ++ toString placementID ++
      ",c=" ++ toString width ++ ",r=" ++ toString height ++
      ",C=1,X=" ++ toString xOffset ++ ",Y=" ++ toString yOffset ++ ",q=1\x1b\\"
  | .deletePlacement imageID placementID =>
      "\x1b_Ga=d,d=i,i=" ++ toString imageID ++ ",p=" ++ toString placementID ++ ",q=1\x1b\\"

/-- UpdateBuffer.String: the in-order concatenation of the command strings. -/
def bufString : List Cmd → String
  | [] => ""
  | c :: cs => cmdString c ++ bufString cs

/-- The sprite variant of a fish, chosen by the sign of its horizontal
velocity: 1 is the left-facing image, 2 the right-facing one. -/
def fishImageID (f : Fish) : ℤ :=
  if 0 < f.VelX then 2 else 1

/-- The clear commands Fish.Render emits first, one per bubble that
expired off-screen during the previous update. -/
def renderClears (f : Fish) : List Cmd :=
  f.BubblesToClear.map (fun rc => Cmd.clearCell rc.1 rc.2)

/-- The bubble pass of Fish.Render: for each live bubble, clear its
previously rendered cell when one is recorded, and draw it at its new cell
when that cell is on screen, recording the cell on the bubble. -/
def renderBubbleStep (f : Fish) (cfg : TerminalConfig) : List Cmd × List Bubble :=
  f.Bubbles.foldl
    (fun (acc : List Cmd × List Bubble) b =>
      let cmds1 := if 0 < b.PrevCol ∧ 0 < b.PrevRow
                   then acc.1 ++ [Cmd.clearCell b.PrevRow b.PrevCol] else acc.1
      let bubbleCol := ratTrunc (b.X / (cfg.CellWidth : ℚ)) + 1
      let bubbleRow := ratTrunc (b.Y / (cfg.CellHeight : ℚ)) + 1
      if 1 ≤ bubbleCol ∧ bubbleCol ≤ cfg.Columns ∧ 1 ≤ bubbleRow ∧ bubbleRow ≤ cfg.Rows then
        (cmds1 ++ [Cmd.text bubbleRow bubbleCol b.Char],
         acc.2 ++ [{ b with PrevCol := bubbleCol, PrevRow := bubbleRow }])
      else
        (cmds1, acc.2 ++ [b]))
    ([], [])

/-- The vertical render position of a fish: its physics position plus the
current bob offset. -/
def renderFinalY (f : Fish) : ℚ :=
  f.PosY + bobOffset f.BobbingTime

/-- The 1-based character column of the sprite placement. -/
def renderCol (f : Fish) (cfg : TerminalConfig) : ℤ :=
  ratTrunc (f.PosX / (cfg.CellWidth : ℚ)) + 1

/-- The 1-based character row of the sprite placement. -/
def renderRow (f : Fish) (cfg : TerminalConfig) : ℤ :=
  ratTrunc (renderFinalY f / (cfg.CellHeight : ℚ)) + 1

/-- The sub-cell horizontal pixel offset of the sprite placement. -/
def renderXOffset (f : Fish) (cfg : TerminalConfig) : ℤ :=
  (ratTrunc f.PosX).tmod cfg.CellWidth

/-- The sub-cell vertical pixel offset of the sprite placement. -/
def renderYOffset (f : Fish) (cfg : TerminalConfig) : ℤ :=
  (ratTrunc (renderFinalY f)).tmod cfg.CellHeight

/-- The sprite width in cells, rounded up. -/
def imageCellW (cfg : TerminalConfig) : ℤ :=
  (ImagePixelWidth + cfg.CellWidth - 1).tdiv cfg.CellWidth

/-- The sprite height in cells, rounded up. -/
def imageCellH (cfg : TerminalConfig) : ℤ :=
  (ImagePixelHeight + cfg.CellHeight - 1).tdiv cfg.CellHeight

/-- Fish.Render: clear cells of expired bubbles, draw live bubbles
(clearing their previous cells), and place the sprite, preceded by a
deletion of the previously rendered variant whenever the variant changed.
Returns the emitted commands together with the mutated fish. -/
def render (f : Fish) (cfg : TerminalConfig) : List Cmd × Fish :=
  (renderClears f ++ (renderBubbleStep f cfg).1 ++
     (if f.LastImageID ≠ 0 ∧ f.LastImageID ≠ fishImageID f
      then [Cmd.deletePlacement f.LastImageID f.PlacementID] else []) ++
     [Cmd.cursorMove (renderRow f cfg) (renderCol f cfg),
      Cmd.placement (fishImageID f) f.PlacementID (imageCellW cfg) (imageCellH cfg)
        (renderXOffset f cfg) (renderYOffset f cfg)],
   { f with BubblesToClear := [], Bubbles := (renderBubbleStep f cfg).2,
            LastImageID := fishImageID f })

/-- The fixed angle set of Fish.OnClick, in degrees. -/
def clickAngles : List ℚ := [90, 180, 260]

/-- The random draws consumed by one call to Fish.OnClick, made explicit:
one jitter and one glyph draw per spawned bubble, the index into the angle
set, and the cosine and sine values the Go code computes from the chosen
angle with math.Cos and math.Sin. -/
structure ClickRand where
  jitter : Fin 3 → ℚ
  glyph : Fin 3 → Fin 4
  angleIdx : Fin 3
  cosv : ℚ
  sinv : ℚ

/-- The angle Fish.OnClick draws from the fixed set. -/
def chosenAngle (rnd : ClickRand) : ℚ :=
  clickAngles.get (rnd.angleIdx.cast rfl)

/-- The three bubbles Fish.OnClick spawns: horizontally jittered around the
fish centre and vertically staggered in steps of 5 pixels. -/
def clickBubbles (f : Fish) (rnd : ClickRand) : List Bubble :=
  (List.finRange 3).map (fun i =>
    { X := f.PosX + 32 + (rnd.jitter i - 1/2) * 20,
      Y := f.PosY - 2 - 5 * (i : ℚ),
      Char := bubbleChars.get ((rnd.glyph i).cast rfl),
      Age := 0, PrevCol := 0, PrevRow := 0 })

/-- Fish.OnClick: append the three bubbles and rotate the velocity vector
by the chosen angle, with the trigonometric values of that angle passed in
through the random-draw record. -/
def onClick (f : Fish) (rnd : ClickRand) : Fish :=
  { f with
    Bubbles := f.Bubbles ++ clickBubbles f rnd,
    VelX := f.VelX * rnd.cosv - f.VelY * rnd.sinv,
    VelY := f.VelX * rnd.sinv + f.VelY * rnd.cosv }

/-- The velocity rotation of Fish.OnClick in exact real arithmetic: the
angle is converted from degrees to radians and the vector is rotated with
cosine and sine. -/
noncomputable def onClickVelR (angle vx vy : ℝ) : ℝ × ℝ :=
  let radians := angle * Real.pi / 180
  (vx * Real.cos radians - vy * Real.sin radians,
   vx * Real.sin radians + vy * Real.cos radians)

/-- The fish-scan loop of Manager.HandleMouseClick: a fish that does not
collide is passed over; a colliding fish that is not owned by the clicking
session is likewise passed over (the Go loop continues); the first
colliding fish owned by the session is clicked and the loop breaks. -/
def clickLoop (connID : ℕ) (mouseX mouseY : ℤ) (rnd : ClickRand) : List Fish → List Fish
  | [] => []
  | f :: rest =>
    if checkCollision f mouseX mouseY then
      if f.OwnerID ≠ connID then f :: clickLoop connID mouseX mouseY rnd rest
      else onClick f rnd :: rest
    else f :: clickLoop connID mouseX mouseY rnd rest

/-- Manager.HandleMouseClick: ignore the event unless a terminal
configuration exists and the button code is 0 (left button down), convert
the 1-based character cell to pixel coordinates, and run the fish scan. -/
def handleMouseClick (termConfig : Option TerminalConfig) (connID : ℕ)
    (button col row : ℤ) (rnd : ClickRand) (fishes : List Fish) : List Fish :=
  match termConfig with
  | none => fishes
  | some cfg =>
    if button ≠ 0 then fishes
    else
      let mouseX := (col - 1) * cfg.CellWidth
      let mouseY := (row - 1) * cfg.CellHeight
      clickLoop connID mouseX mouseY rnd fishes

/-- The standard base64 alphabet. -/
def b64Alphabet : List Char :=
  ['A','B','C','D','E','F','G','H','I','J','K','L','M','N','O','P','Q','R','S','T',
   'U','V','W','X','Y','Z','a','b','c','d','e','f','g','h','i','j','k','l','m','n',
   'o','p','q','r','s','t','u','v','w','x','y','z','0','1','2','3','4','5','6','7',
   '8','9','+','/']

/-- The base64 digit of a 6-bit value. -/
def b64Char (n : ℕ) : Char :=
  b64Alphabet.getD (n % 64) 'A'

/-- Standard (padded) base64 of a byte sequence, as produced by Go's
base64.StdEncoding.EncodeToString. -/
def base64Encode : List ℕ → List Char
  | [] => []
  | [b1] => [b64Char (b1 / 4), b64Char (b1 % 4 * 16), '=', '=']
  | [b1, b2] => [b64Char (b1 / 4), b64Char (b1 % 4 * 16 + b2 / 16), b64Char (b2 % 16 * 4), '=']
  | b1 :: b2 :: b3 :: rest =>
      b64Char (b1 / 4) :: b64Char (b1 % 4 * 16 + b2 / 16) ::
      b64Char (b2 % 16 * 4 + b3 / 64) :: b64Char (b3 % 64) :: base64Encode rest

/-- The control metadata of one Kitty image-upload frame: the first frame
carries the transmit command (action transmit, PNG format, the image id and
the more-chunks flag); every later frame carries only the continuation
metadata (the more-chunks flag). -/
inductive FrameCtrl where
  | transmit (imageID : ℕ) (more : Bool)
  | cont (more : Bool)
deriving DecidableEq, Repr

/-- One emitted upload frame: control metadata plus the payload chunk. -/
structure Frame where
  ctrl : FrameCtrl
  payload : List Char
deriving DecidableEq, Repr

/-- Whether a frame control is the transmit command of the first frame. -/
def FrameCtrl.isTransmit : FrameCtrl → Bool
  | .transmit _ _ => true
  | .cont _ => false

/-- The more-chunks flag of a frame control. -/
def FrameCtrl.moreFlag : FrameCtrl → Bool
  | .transmit _ m => m
  | .cont m => m

/-- The chunking loop of Handler.uploadImage: slice the base64 text into
chunks of at most 4096 characters; the frame at offset i has its
more-chunks flag set exactly when i + 4096 is still short of the end. -/
def uploadChunks (imageID : ℕ) (first : Bool) (rest : List Char) : List Frame :=
  if h : rest = [] then []
  else
    let more := decide (4096 < rest.length)
    let ctrl := if first then FrameCtrl.transmit imageID more else FrameCtrl.cont more
    { ctrl := ctrl, payload := rest.take 4096 } ::
      uploadChunks imageID false (rest.drop 4096)
termination_by rest.length
decreasing_by
  have hlen : 0 < rest.length := List.length_pos.mpr h
  simp only [List.length_drop]
  omega

/-- Handler.uploadImage: base64-encode the image bytes and emit one frame
per 4096-character chunk. -/
def uploadFrames (imageID : ℕ) (data : List ℕ) : List Frame :=
  uploadChunks imageID true (base64Encode data)

/-- The in-order concatenation of the payload chunks of a frame list. -/
def joinPayloads : List Frame → List Char
  | [] => []
  | fr :: rest => fr.payload ++ joinPayloads rest

/-- One registered connection of the aquarium Manager: the session id, the
ids of the fish it owns, and the display username. -/
structure MConn where
  id : ℕ
  fishIDs : List ℕ
  username : String
deriving DecidableEq, Repr

/-- The shared state of the aquarium Manager: the entity table, the
registered connections, the epoch capability, whether the animation
scheduler is running, and the fish-id counter. -/
structure MState where
  fish : List Fish
  conns : List MConn
  termConfig : Option TerminalConfig
  animationOn : Bool
  fishCounter : ℕ
deriving DecidableEq, Repr

/-- Manager.RemoveConnection: drop the session's fish and the session
itself; when the registered-session count reaches zero while the animation
scheduler is running, stop the scheduler and discard the epoch state (the
capability and the fish-id counter). -/
def removeConnection (s : MState) (connID : ℕ) : MState :=
  match s.conns.find? (fun c => c.id = connID) with
  | none => s
  | some c =>
    let fish2 := s.fish.filter (fun f => decide (f.ID ∉ c.fishIDs))
    let conns2 := s.conns.filter (fun c2 => decide (c2.id ≠ connID))
    let s2 := { s with fish := fish2, conns := conns2 }
    if conns2 = [] ∧ s.animationOn then
      { s2 with animationOn := false, termConfig := none, fishCounter := 0 }
    else s2

/-- The random draws consumed by NewFish, made explicit: starting position,
velocity and bob phase. -/
structure SpawnRand where
  posXr : ℚ
  posYr : ℚ
  velXr : ℚ
  velYr : ℚ
  bobR : ℚ
deriving DecidableEq, Repr

/-- NewFish: spawn a fish inside the usable area (the canvas minus the
floor-tile band and status bar, computed here in integer arithmetic) with a
random position, velocity and bob phase. -/
def newFish (id ownerID : ℕ) (termWidth termHeight cellWidth cellHeight : ℤ)
    (username : String) (rnd : SpawnRand) : Fish :=
  let tileHeight := (48 + cellHeight - 1).tdiv cellHeight
  let floorHeight := tileHeight * cellHeight
  let statusHeight := cellHeight
  let usableHeight := termHeight - floorHeight - statusHeight
  { ID := id, OwnerID := ownerID, PlacementID := id,
    PosX := rnd.posXr * ((termWidth - ImagePixelWidth : ℤ) : ℚ),
    PosY := rnd.posYr * ((usableHeight - ImagePixelHeight : ℤ) : ℚ),
    VelX := (rnd.velXr - 1/2) * (24/5) * (cellWidth : ℚ),
    VelY := (rnd.velYr - 1/2) * (6/5) * (cellHeight : ℚ),
    BobbingTime := rnd.bobR * 100,
    Bubbles := [], LastImageID := 0, BubblesToClear := [], Username := username }

/-- Manager.AddFish: spawn exactly one fish for a registered session once a
terminal configuration exists; otherwise do nothing and return no ids. -/
def addFish (s : MState) (connID : ℕ) (rnd : SpawnRand) : MState × List ℕ :=
  match s.termConfig, s.conns.find? (fun c => c.id = connID) with
  | some cfg, some c =>
    let fishID := s.fishCounter + 1
    let f := newFish fishID connID (cfg.Columns * cfg.CellWidth)
      (cfg.Rows * cfg.CellHeight) cfg.CellWidth cfg.CellHeight c.username rnd
    ({ s with
        fish := s.fish ++ [f],
        fishCounter := fishID,
        conns := s.conns.map (fun c2 =>
          if c2.id = connID then { c2 with fishIDs := c2.fishIDs ++ [fishID] } else c2) },
     [fishID])
  | _, _ => (s, [])

/-- The per-session state of the connection handler that negotiation
touches: the character grid reported by the transport and the cell pixel
size. -/
structure HandlerState where
  termColumns : ℤ
  termRows : ℤ
  cellWidth : ℤ
  cellHeight : ℤ
deriving DecidableEq, Repr

/-- connection.New: a fresh handler starts from the default capability of
80 by 24 characters and 8 by 16 pixel cells. -/
def newHandler : HandlerState :=
  { termColumns := 80, termRows := 24, cellWidth := 8, cellHeight := 16 }

/-- Handler.SetTerminal: record the character grid reported by the
transport. -/
def setTerminal (h : HandlerState) (columns rows : ℤ) : HandlerState :=
  { h with termColumns := columns, termRows := rows }

/-- The response branch of Handler.detectTerminalAndInit: when a matching
capability response with pixel width and height arrives in time and the
character grid is positive, the cell size becomes the integer quotient of
pixel dimension by character dimension (Go integer division truncates). -/
def applyPixelResponse (h : HandlerState) (pixelWidth pixelHeight : ℤ) : HandlerState :=
  if 0 < h.termColumns ∧ 0 < h.termRows then
    { h with cellWidth := pixelWidth.tdiv h.termColumns,
             cellHeight := pixelHeight.tdiv h.termRows }
  else h

/-- The timeout branch of Handler.detectTerminalAndInit followed by
initializeAquarium: nothing in the handler state changes, and the epoch
capability is built from the current fields. -/
def timeoutConfig (h : HandlerState) : TerminalConfig :=
  { Columns := h.termColumns, Rows := h.termRows,
    CellWidth := h.cellWidth, CellHeight := h.cellHeight }

/-- The cell-size derivation in the words of the specification: pixel
dimension over character dimension rounded to the nearest integer, with a
minimum of 1 in each dimension.  Stated for comparison with
applyPixelResponse, which is the derivation the code performs. -/
def specCellSize (pixelWidth pixelHeight columns rows : ℤ) : ℤ × ℤ :=
  (max 1 (round ((pixelWidth : ℚ) / (columns : ℚ))),
   max 1 (round ((pixelHeight : ℚ) / (rows : ℚ))))

/-- The bob offset in the words of the specification: a step function of
floor of the phase taken modulo 4 in the mathematical sense.  Stated for
comparison with bobOffset, which is what the code computes. -/
def specBobOffset (t : ℚ) : ℚ :=
  let step := (⌊t⌋ : ℤ) % 4
  if step = 0 then 0
  else if step = 1 then 6
  else if step = 2 then 12
  else 6

/-- A fish with the given ids, position, velocity and bob phase and no
bubbles, used as concrete input in witnesses and counterexamples. -/
def mkSimpleFish (id ownerID : ℕ) (px py vx vy bob : ℚ) : Fish :=
  { ID := id, OwnerID := ownerID, PlacementID := id,
    PosX := px, PosY := py, VelX := vx, VelY := vy, BobbingTime := bob,
    Bubbles := [], LastImageID := 0, BubblesToClear := [], Username := "user" }

/-- The default 80 by 24 terminal with 8 by 16 pixel cells. -/
def cfg80 : TerminalConfig :=
  { Columns := 80, Rows := 24, CellWidth := 8, CellHeight := 16 }

/-- A tiny but positive terminal: one column of one-pixel cells. -/
def tinyCfg : TerminalConfig :=
  { Columns := 1, Rows := 100, CellWidth := 1, CellHeight := 1 }

/-- A concrete connection owning fish 1, used in witnesses. -/
def wconn7 : MConn := { id := 1, fishIDs := [1], username := "user" }

/-- A concrete one-session manager state with one fish and the scheduler
running, used in witnesses. -/
def wstate7 : MState :=
  { fish := [mkSimpleFish 1 1 0 0 0 0 0], conns := [wconn7],
    termConfig := some cfg80, animationOn := true, fishCounter := 1 }

/-- A concrete connection owning no fish yet, used in witnesses. -/
def wconn9 : MConn := { id := 1, fishIDs := [], username := "user" }

/-- A concrete one-session manager state with the default capability and
no fish yet, used in witnesses. -/
def wstate9 : MState :=
  { fish := [], conns := [wconn9],
    termConfig := some cfg80, animationOn := true, fishCounter := 0 }

theorem updateBubbles_PosX (f : Fish) (dt : ℚ) : (updateBubbles f dt).PosX = f.PosX := rfl

theorem updateBubbles_PosY (f : Fish) (dt : ℚ) : (updateBubbles f dt).PosY = f.PosY := rfl

theorem updateBubbles_VelX (f : Fish) (dt : ℚ) : (updateBubbles f dt).VelX = f.VelX := rfl

theorem updateBubbles_VelY (f : Fish) (dt : ℚ) : (updateBubbles f dt).VelY = f.VelY := rfl

theorem spawnBubble_PosX (f : Fish) (g : Fin 4) : (spawnBubble f g).PosX = f.PosX := rfl

theorem spawnBubble_PosY (f : Fish) (g : Fin 4) : (spawnBubble f g).PosY = f.PosY := rfl

theorem spawnBubble_VelX (f : Fish) (g : Fin 4) : (spawnBubble f g).VelX = f.VelX := rfl

theorem spawnBubble_VelY (f : Fish) (g : Fin 4) : (spawnBubble f g).VelY = f.VelY := rfl

/-- Characterization of the kinematic fields of update: the clamped
position and reflected velocity, independent of the bubble bookkeeping. -/
theorem update_kinematics (f : Fish) (cfg : TerminalConfig) (dt spawnRnd : ℚ) (g : Fin 4) :
    (update f cfg dt spawnRnd g).PosX =
      (if f.PosX + f.VelX * dt + 64 > ((cfg.Columns * cfg.CellWidth : ℤ) : ℚ)
       then ((cfg.Columns * cfg.CellWidth : ℤ) : ℚ) - 64
       else if f.PosX + f.VelX * dt < 0 then 0 else f.PosX + f.VelX * dt) ∧
    (update f cfg dt spawnRnd g).VelX =
      (if f.PosX + f.VelX * dt + 64 > ((cfg.Columns * cfg.CellWidth : ℤ) : ℚ)
       then -|f.VelX|
       else if f.PosX + f.VelX * dt < 0 then |f.VelX| else f.VelX) ∧
    (update f cfg dt spawnRnd g).PosY =
      (if f.PosY + f.VelY * dt + 36 > usableHeightQ cfg
       then usableHeightQ cfg - 36
       else if f.PosY + f.VelY * dt < 0 then 0 else f.PosY + f.VelY * dt) ∧
    (update f cfg dt spawnRnd g).VelY =
      (if f.PosY + f.VelY * dt + 36 > usableHeightQ cfg
       then -|f.VelY|
       else if f.PosY + f.VelY * dt < 0 then |f.VelY| else f.VelY) := by
  unfold update
  dsimp only
  split <;>
    simp [updateBubbles_PosX, updateBubbles_PosY, updateBubbles_VelX, updateBubbles_VelY,
      spawnBubble_PosX, spawnBubble_PosY, spawnBubble_VelX, spawnBubble_VelY]

/-- Claim C1, counterexample: on a positive but tiny terminal (one column
of one-pixel cells) the clamp lands at canvasWidth minus spriteWidth,
which is negative, so the claimed bound 0 ≤ PosX fails after one Update
with deltaTime 0. -/
theorem c1_counterexample :
    0 < tinyCfg.Columns ∧ 0 < tinyCfg.Rows ∧ 0 < tinyCfg.CellWidth ∧ 0 < tinyCfg.CellHeight ∧
    ¬ (0 ≤ (update (mkSimpleFish 1 1 0 0 0 0 0) tinyCfg 0 1 0).PosX) := by
  refine ⟨by norm_num [tinyCfg], by norm_num [tinyCfg], by norm_num [tinyCfg],
    by norm_num [tinyCfg], ?_⟩
  obtain ⟨hx, -, -, -⟩ := update_kinematics (mkSimpleFish 1 1 0 0 0 0 0) tinyCfg 0 1 0
  rw [hx]
  norm_num [mkSimpleFish, tinyCfg]

/-- Claim C1, amended: for terminals whose canvas is at least the sprite
width wide and whose usable height is at least the sprite height, one
Update with nonnegative deltaTime leaves the position inside
[0, canvasWidth - spriteWidth] times [0, usableHeight - spriteHeight]. -/
theorem c1_boundary_clamp (f : Fish) (cfg : TerminalConfig) (dt spawnRnd : ℚ) (g : Fin 4)
    (hdt : 0 ≤ dt) (hcols : 0 < cfg.Columns) (hrows : 0 < cfg.Rows)
    (hcw : 0 < cfg.CellWidth) (hch : 0 < cfg.CellHeight)
    (hW : 64 ≤ ((cfg.Columns * cfg.CellWidth : ℤ) : ℚ))
    (hU : 36 ≤ usableHeightQ cfg) :
    0 ≤ (update f cfg dt spawnRnd g).PosX ∧
    (update f cfg dt spawnRnd g).PosX ≤ ((cfg.Columns * cfg.CellWidth : ℤ) : ℚ) - 64 ∧
    0 ≤ (update f cfg dt spawnRnd g).PosY ∧
    (update f cfg dt spawnRnd g).PosY ≤ usableHeightQ cfg - 36 := by
  obtain ⟨hx, -, hy, -⟩ := update_kinematics f cfg dt spawnRnd g
  refine ⟨?_, ?_, ?_, ?_⟩
  · rw [hx]; split_ifs <;> linarith
  · rw [hx]; split_ifs <;> linarith
  · rw [hy]; split_ifs <;> linarith
  · rw [hy]; split_ifs <;> linarith

/-- Witness for c1_boundary_clamp at a concrete fish on the default
80 by 24 terminal with 8 by 16 cells. -/
theorem c1_boundary_clamp_witness :
    (0 ≤ (2 : ℚ) ∧ 0 < cfg80.Columns ∧ 0 < cfg80.Rows ∧ 0 < cfg80.CellWidth ∧
     0 < cfg80.CellHeight ∧ 64 ≤ ((cfg80.Columns * cfg80.CellWidth : ℤ) : ℚ) ∧
     36 ≤ usableHeightQ cfg80) ∧
    (0 ≤ (update (mkSimpleFish 1 1 600 100 10 5 0) cfg80 2 1 0).PosX ∧
     (update (mkSimpleFish 1 1 600 100 10 5 0) cfg80 2 1 0).PosX ≤
       ((cfg80.Columns * cfg80.CellWidth : ℤ) : ℚ) - 64 ∧
     0 ≤ (update (mkSimpleFish 1 1 600 100 10 5 0) cfg80 2 1 0).PosY ∧
     (update (mkSimpleFish 1 1 600 100 10 5 0) cfg80 2 1 0).PosY ≤ usableHeightQ cfg80 - 36) :=
  ⟨⟨by norm_num, by norm_num [cfg80], by norm_num [cfg80], by norm_num [cfg80],
    by norm_num [cfg80], by norm_num [cfg80], by norm_num [usableHeightQ, cfg80]⟩,
   c1_boundary_clamp (mkSimpleFish 1 1 600 100 10 5 0) cfg80 2 1 0
     (by norm_num) (by norm_num [cfg80]) (by norm_num [cfg80]) (by norm_num [cfg80])
     (by norm_num [cfg80]) (by norm_num [cfg80]) (by norm_num [usableHeightQ, cfg80])⟩

/-- Claim C5: when the integrated x position overshoots the right boundary,
Update leaves the horizontal velocity nonpositive and the x position
exactly at canvasWidth minus spriteWidth. -/
theorem c5_elastic_reflection_right (f : Fish) (cfg : TerminalConfig)
    (dt spawnRnd : ℚ) (g : Fin 4)
    (h : ((cfg.Columns * cfg.CellWidth : ℤ) : ℚ) < f.PosX + f.VelX * dt + 64) :
    (update f cfg dt spawnRnd g).VelX ≤ 0 ∧
    (update f cfg dt spawnRnd g).PosX = ((cfg.Columns * cfg.CellWidth : ℤ) : ℚ) - 64 := by
  obtain ⟨hx, hv, -, -⟩ := update_kinematics f cfg dt spawnRnd g
  constructor
  · rw [hv, if_pos h]
    exact neg_nonpos.mpr (abs_nonneg f.VelX)
  · rw [hx, if_pos h]

/-- Witness for c5_elastic_reflection_right: a fish at x 600 with velocity
10 and deltaTime 2 overshoots the 640-pixel canvas of the default
terminal and is reflected to x 576. -/
theorem c5_elastic_reflection_right_witness :
    ((cfg80.Columns * cfg80.CellWidth : ℤ) : ℚ) <
      (mkSimpleFish 1 1 600 100 10 5 0).PosX + (mkSimpleFish 1 1 600 100 10 5 0).VelX * 2 + 64 ∧
    ((update (mkSimpleFish 1 1 600 100 10 5 0) cfg80 2 1 0).VelX ≤ 0 ∧
     (update (mkSimpleFish 1 1 600 100 10 5 0) cfg80 2 1 0).PosX =
       ((cfg80.Columns * cfg80.CellWidth : ℤ) : ℚ) - 64) :=
  ⟨by norm_num [cfg80, mkSimpleFish],
   c5_elastic_reflection_right (mkSimpleFish 1 1 600 100 10 5 0) cfg80 2 1 0
     (by norm_num [cfg80, mkSimpleFish])⟩

/-- Claim C10: Update preserves the magnitudes of both velocity components
(boundary handling only flips signs), and the OnClick rotation, taken in
exact real arithmetic, preserves the Euclidean norm of the velocity
vector, so ticks and clicks change direction only, never speed. -/
theorem c10_speed_preserved :
    (∀ (f : Fish) (cfg : TerminalConfig) (dt spawnRnd : ℚ) (g : Fin 4),
        |(update f cfg dt spawnRnd g).VelX| = |f.VelX| ∧
        |(update f cfg dt spawnRnd g).VelY| = |f.VelY|) ∧
    (∀ angle vx vy : ℝ,
        Real.sqrt ((onClickVelR angle vx vy).1 ^ 2 + (onClickVelR angle vx vy).2 ^ 2) =
          Real.sqrt (vx ^ 2 + vy ^ 2)) := by
  constructor
  · intro f cfg dt spawnRnd g
    obtain ⟨-, hvx, -, hvy⟩ := update_kinematics f cfg dt spawnRnd g
    constructor
    · rw [hvx]; split_ifs <;> simp [abs_abs, abs_neg]
    · rw [hvy]; split_ifs <;> simp [abs_abs, abs_neg]
  · intro angle vx vy
    have hs := Real.sin_sq_add_cos_sq (angle * Real.pi / 180)
    unfold onClickVelR
    dsimp only
    congr 1
    linear_combination (vx ^ 2 + vy ^ 2) * hs

theorem ratTrunc_eq_floor {q : ℚ} (h : 0 ≤ q) : ratTrunc q = ⌊q⌋ := by
  have hnum : 0 ≤ q.num := Rat.num_nonneg.mpr h
  have hden : (0 : ℤ) ≤ (q.den : ℤ) := Int.ofNat_nonneg q.den
  rw [ratTrunc, Int.tdiv_eq_ediv hnum hden, Rat.floor_def]

/-- Claim C6, counterexample: at the negative phase value -3/2 the code's
truncation toward zero and truncated remainder leave the offset at 0,
while the claimed formula (floor of the phase taken modulo 4, giving
bucket 2) demands the full amplitude 12. -/
theorem c6_counterexample :
    bobOffset (-3/2 : ℚ) = 0 ∧ specBobOffset (-3/2 : ℚ) = 12 ∧ (0 : ℚ) ≠ 12 := by
  refine ⟨?_, ?_, by norm_num⟩
  · norm_num [bobOffset, ratTrunc]
    decide
  · norm_num [specBobOffset]

/-- Claim C6, amended: the bob offset always lies in the discrete set
containing 0, the half amplitude 6 and the full amplitude 12, and for
every nonnegative phase value (the accumulator starts nonnegative and only
grows) it equals the claimed step function of floor of the phase modulo 4
with buckets 0, 6, 12, 6. -/
theorem c6_stepped_bob (t : ℚ) :
    (bobOffset t = 0 ∨ bobOffset t = 6 ∨ bobOffset t = 12) ∧
    (0 ≤ t → bobOffset t = specBobOffset t) := by
  constructor
  · unfold bobOffset
    dsimp only
    split_ifs <;> norm_num
  · intro ht
    have hfloor : 0 ≤ ⌊t⌋ := Int.floor_nonneg.mpr ht
    have hmod : (ratTrunc t).tmod 4 = ⌊t⌋ % 4 := by
      rw [ratTrunc_eq_floor ht, Int.tmod_eq_emod hfloor (by norm_num)]
    have hrange : 0 ≤ ⌊t⌋ % 4 ∧ ⌊t⌋ % 4 < 4 :=
      ⟨Int.emod_nonneg _ (by norm_num), Int.emod_lt_of_pos _ (by norm_num)⟩
    unfold bobOffset specBobOffset
    dsimp only
    rw [hmod]
    have hcases : ⌊t⌋ % 4 = 0 ∨ ⌊t⌋ % 4 = 1 ∨ ⌊t⌋ % 4 = 2 ∨ ⌊t⌋ % 4 = 3 := by omega
    rcases hcases with h4 | h4 | h4 | h4 <;> rw [h4] <;> norm_num

/-- Witness for c6_stepped_bob at the nonnegative phase 5/2: bucket 2, full
amplitude. -/
theorem c6_stepped_bob_witness :
    ((bobOffset (5/2 : ℚ) = 0 ∨ bobOffset (5/2 : ℚ) = 6 ∨ bobOffset (5/2 : ℚ) = 12) ∧
     (0 ≤ (5/2 : ℚ) → bobOffset (5/2 : ℚ) = specBobOffset (5/2 : ℚ))) ∧
    bobOffset (5/2 : ℚ) = 12 :=
  ⟨c6_stepped_bob (5/2 : ℚ), by norm_num [bobOffset, ratTrunc]; decide⟩

theorem bufString_append (l1 l2 : List Cmd) :
    bufString (l1 ++ l2) = bufString l1 ++ bufString l2 := by
  induction l1 with
  | nil => simp [bufString]
  | cons c cs ih => simp [bufString, ih, String.append_assoc]

/-- Claim C4: Render records the rendered variant on the fish, and when
the previously recorded variant is set and differs from the current one,
the emitted command sequence (and hence the emitted byte string) contains
the deletion of the old image-id/placement-id pair strictly before the
placement of the new variant with the same placement id. -/
theorem c4_variant_change_deletion (f : Fish) (cfg : TerminalConfig) :
    ((render f cfg).2).LastImageID = fishImageID f ∧
    (f.LastImageID ≠ 0 → f.LastImageID ≠ fishImageID f →
      ∃ pre r c w h xo yo,
        (render f cfg).1 =
          pre ++ [Cmd.deletePlacement f.LastImageID f.PlacementID,
                  Cmd.cursorMove r c,
                  Cmd.placement (fishImageID f) f.PlacementID w h xo yo] ∧
        bufString (render f cfg).1 =
          bufString pre ++
            (cmdString (Cmd.deletePlacement f.LastImageID f.PlacementID) ++
             (cmdString (Cmd.cursorMove r c) ++
              cmdString (Cmd.placement (fishImageID f) f.PlacementID w h xo yo)))) := by
  constructor
  · rfl
  · intro h0 hne
    have hlist : (render f cfg).1 =
        (renderClears f ++ (renderBubbleStep f cfg).1) ++
          [Cmd.deletePlacement f.LastImageID f.PlacementID,
           Cmd.cursorMove (renderRow f cfg) (renderCol f cfg),
           Cmd.placement (fishImageID f) f.PlacementID (imageCellW cfg) (imageCellH cfg)
             (renderXOffset f cfg) (renderYOffset f cfg)] := by
      unfold render
      rw [if_pos (And.intro h0 hne)]
      simp [List.append_assoc]
    refine ⟨renderClears f ++ (renderBubbleStep f cfg).1, renderRow f cfg, renderCol f cfg,
      imageCellW cfg, imageCellH cfg, renderXOffset f cfg, renderYOffset f cfg, hlist, ?_⟩
    rw [hlist, bufString_append]
    simp [bufString, String.append_assoc]

/-- Witness for c4_variant_change_deletion: a right-swimming fish whose
previous render recorded the left-facing variant. -/
theorem c4_variant_change_witness :
    (({ mkSimpleFish 1 1 0 0 1 0 0 with LastImageID := 1 } : Fish).LastImageID ≠ 0 ∧
     ({ mkSimpleFish 1 1 0 0 1 0 0 with LastImageID := 1 } : Fish).LastImageID ≠
       fishImageID { mkSimpleFish 1 1 0 0 1 0 0 with LastImageID := 1 }) ∧
    (∃ pre r c w h xo yo,
        (render { mkSimpleFish 1 1 0 0 1 0 0 with LastImageID := 1 } cfg80).1 =
          pre ++ [Cmd.deletePlacement 1 1, Cmd.cursorMove r c,
                  Cmd.placement (fishImageID { mkSimpleFish 1 1 0 0 1 0 0 with LastImageID := 1 })
                    1 w h xo yo] ∧
        bufString (render { mkSimpleFish 1 1 0 0 1 0 0 with LastImageID := 1 } cfg80).1 =
          bufString pre ++
            (cmdString (Cmd.deletePlacement 1 1) ++
             (cmdString (Cmd.cursorMove r c) ++
              cmdString (Cmd.placement
                (fishImageID { mkSimpleFish 1 1 0 0 1 0 0 with LastImageID := 1 })
                1 w h xo yo)))) :=
  ⟨⟨by norm_num [mkSimpleFish], by norm_num [mkSimpleFish, fishImageID]⟩,
   (c4_variant_change_deletion { mkSimpleFish 1 1 0 0 1 0 0 with LastImageID := 1 } cfg80).2
     (by norm_num [mkSimpleFish]) (by norm_num [mkSimpleFish, fishImageID])⟩

theorem clickLoop_no_target (connID : ℕ) (mx my : ℤ) (rnd : ClickRand) (fishes : List Fish)
    (h : ∀ g ∈ fishes, ¬ (checkCollision g mx my = true ∧ g.OwnerID = connID)) :
    clickLoop connID mx my rnd fishes = fishes := by
  induction fishes with
  | nil => rfl
  | cons g gs ih =>
    have hg := h g (List.mem_cons_self g gs)
    have hgs : ∀ x ∈ gs, ¬ (checkCollision x mx my = true ∧ x.OwnerID = connID) :=
      fun x hx => h x (List.mem_cons_of_mem g hx)
    unfold clickLoop
    by_cases hc : checkCollision g mx my = true
    · have hno : g.OwnerID ≠ connID := fun he => hg ⟨hc, he⟩
      simp [hc, hno, ih hgs]
    · simp [hc, ih hgs]

theorem clickLoop_first_target (connID : ℕ) (mx my : ℤ) (rnd : ClickRand)
    (pre post : List Fish) (f : Fish)
    (hpre : ∀ g ∈ pre, ¬ (checkCollision g mx my = true ∧ g.OwnerID = connID))
    (hf : checkCollision f mx my = true) (hown : f.OwnerID = connID) :
    clickLoop connID mx my rnd (pre ++ f :: post) = pre ++ onClick f rnd :: post := by
  induction pre with
  | nil =>
    simp only [List.nil_append]
    unfold clickLoop
    have hno : ¬ f.OwnerID ≠ connID := fun h => h hown
    simp [hf, hno]
  | cons g gs ih =>
    have hg := hpre g (List.mem_cons_self g gs)
    have hgs : ∀ x ∈ gs, ¬ (checkCollision x mx my = true ∧ x.OwnerID = connID) :=
      fun x hx => hpre x (List.mem_cons_of_mem g hx)
    unfold clickLoop
    by_cases hc : checkCollision g mx my = true
    · have hno : g.OwnerID ≠ connID := fun he => hg ⟨hc, he⟩
      simp [hc, hno, ih hgs]
    · simp [hc, ih hgs]

/-- Claim C2, counterexample: two overlapping fish, the first owned by
session 2 and the second by session 1.  Session 1 clicks at the shared
rectangle: the first colliding fish is not owned by the clicker, yet the
event is not discarded — the second fish is clicked and gains 3 bubbles. -/
theorem c2_counterexample :
    checkCollision (mkSimpleFish 2 2 0 0 0 0 0) 0 0 = true ∧
    (mkSimpleFish 2 2 0 0 0 0 0).OwnerID ≠ 1 ∧
    (mkSimpleFish 1 1 0 0 0 0 0).Bubbles.length = 0 ∧
    (((handleMouseClick (some cfg80) 1 0 1 1 ⟨fun _ => 1/2, fun _ => 0, 0, 1, 0⟩
        [mkSimpleFish 2 2 0 0 0 0 0, mkSimpleFish 1 1 0 0 0 0 0]).getD 1
        (mkSimpleFish 1 1 0 0 0 0 0)).Bubbles).length = 3 := by
  have htrunc : ratTrunc (0 : ℚ) = 0 := by norm_num [ratTrunc]
  have hbob : bobOffset (0 : ℚ) = 0 := by
    norm_num [bobOffset, ratTrunc]
  have hcoll : ∀ i o : ℕ, checkCollision (mkSimpleFish i o 0 0 0 0 0) 0 0 = true := by
    intro i o
    simp only [checkCollision, mkSimpleFish, Bool.and_eq_true, decide_eq_true_eq]
    rw [hbob]
    norm_num [htrunc, ImagePixelWidth, ImagePixelHeight]
  refine ⟨hcoll 2 2, by norm_num [mkSimpleFish], rfl, ?_⟩
  have hB : (mkSimpleFish 2 2 0 0 0 0 0).OwnerID ≠ 1 := by norm_num [mkSimpleFish]
  have hA : (mkSimpleFish 1 1 0 0 0 0 0).OwnerID = 1 := rfl
  have hres : handleMouseClick (some cfg80) 1 0 1 1 ⟨fun _ => 1/2, fun _ => 0, 0, 1, 0⟩
      [mkSimpleFish 2 2 0 0 0 0 0, mkSimpleFish 1 1 0 0 0 0 0] =
      [mkSimpleFish 2 2 0 0 0 0 0,
       onClick (mkSimpleFish 1 1 0 0 0 0 0) ⟨fun _ => 1/2, fun _ => 0, 0, 1, 0⟩] := by
    have hmx : ((1 : ℤ) - 1) * cfg80.CellWidth = 0 := by norm_num [cfg80]
    have hmy : ((1 : ℤ) - 1) * cfg80.CellHeight = 0 := by norm_num [cfg80]
    simp only [handleMouseClick]
    rw [if_neg (fun h => h rfl), hmx, hmy]
    exact clickLoop_first_target 1 0 0 _ [mkSimpleFish 2 2 0 0 0 0 0] []
      (mkSimpleFish 1 1 0 0 0 0 0)
      (by intro g hg
          simp only [List.mem_singleton] at hg
          subst hg
          exact fun hand => hB hand.2)
      (hcoll 1 1) hA
  rw [hres]
  simp [onClick, clickBubbles, mkSimpleFish]

/-- Claim C2, amended: a colliding fish that is not owned by the clicking
session is skipped (the scan continues past it, it is not mutated and the
event is not discarded); the first colliding fish owned by the session
receives exactly 3 vertically staggered bubbles and has its velocity
rotated with the trigonometric values of an angle drawn from the set
containing 90, 180 and 260 degrees; every other fish is unchanged, so at
most one fish is mutated per click; and when no colliding fish is owned by
the session nothing at all is mutated. -/
theorem c2_click_ownership (cfg : TerminalConfig) (connID : ℕ) (col row : ℤ)
    (rnd : ClickRand) (pre post : List Fish) (f : Fish)
    (hpre : ∀ g ∈ pre,
      ¬ (checkCollision g ((col - 1) * cfg.CellWidth) ((row - 1) * cfg.CellHeight) = true ∧
         g.OwnerID = connID))
    (hf : checkCollision f ((col - 1) * cfg.CellWidth) ((row - 1) * cfg.CellHeight) = true)
    (hown : f.OwnerID = connID) :
    handleMouseClick (some cfg) connID 0 col row rnd (pre ++ f :: post) =
      pre ++ onClick f rnd :: post ∧
    (onClick f rnd).Bubbles = f.Bubbles ++ clickBubbles f rnd ∧
    (clickBubbles f rnd).length = 3 ∧
    (∀ i : Fin 3, (clickBubbles f rnd).get (i.cast (by simp [clickBubbles])) =
      { X := f.PosX + 32 + (rnd.jitter i - 1/2) * 20,
        Y := f.PosY - 2 - 5 * (i : ℚ),
        Char := bubbleChars.get ((rnd.glyph i).cast rfl),
        Age := 0, PrevCol := 0, PrevRow := 0 }) ∧
    (onClick f rnd).VelX = f.VelX * rnd.cosv - f.VelY * rnd.sinv ∧
    (onClick f rnd).VelY = f.VelX * rnd.sinv + f.VelY * rnd.cosv ∧
    chosenAngle rnd ∈ clickAngles ∧
    (∀ fishes : List Fish,
      (∀ g ∈ fishes,
        ¬ (checkCollision g ((col - 1) * cfg.CellWidth) ((row - 1) * cfg.CellHeight) = true ∧
           g.OwnerID = connID)) →
      handleMouseClick (some cfg) connID 0 col row rnd fishes = fishes) := by
  refine ⟨?_, rfl, rfl, ?_, rfl, rfl, ?_, ?_⟩
  · simp only [handleMouseClick]
    rw [if_neg (fun h => h rfl)]
    exact clickLoop_first_target connID _ _ rnd pre post f hpre hf hown
  · intro i
    fin_cases i <;> rfl
  · unfold chosenAngle
    exact List.get_mem clickAngles (rnd.angleIdx.cast rfl).1 (rnd.angleIdx.cast rfl).2
  · intro fishes hno
    simp only [handleMouseClick]
    rw [if_neg (fun h => h rfl)]
    exact clickLoop_no_target connID _ _ rnd fishes hno

/-- Witness for c2_click_ownership: a fish of session 2 is scanned first
and skipped, then session 1's own fish is clicked. -/
theorem c2_click_ownership_witness :
    (∀ g ∈ [mkSimpleFish 2 2 0 0 0 0 0],
      ¬ (checkCollision g (((1 : ℤ) - 1) * cfg80.CellWidth)
           (((1 : ℤ) - 1) * cfg80.CellHeight) = true ∧ g.OwnerID = 1)) ∧
    checkCollision (mkSimpleFish 1 1 0 0 0 0 0) (((1 : ℤ) - 1) * cfg80.CellWidth)
      (((1 : ℤ) - 1) * cfg80.CellHeight) = true ∧
    (mkSimpleFish 1 1 0 0 0 0 0).OwnerID = 1 ∧
    handleMouseClick (some cfg80) 1 0 1 1 ⟨fun _ => 0, fun _ => 1, 1, 0, 1⟩
        ([mkSimpleFish 2 2 0 0 0 0 0] ++ mkSimpleFish 1 1 0 0 0 0 0 :: []) =
      [mkSimpleFish 2 2 0 0 0 0 0] ++
        onClick (mkSimpleFish 1 1 0 0 0 0 0) ⟨fun _ => 0, fun _ => 1, 1, 0, 1⟩ :: [] := by
  have hmx : (((1 : ℤ) - 1) * cfg80.CellWidth) = 0 := by norm_num [cfg80]
  have hmy : (((1 : ℤ) - 1) * cfg80.CellHeight) = 0 := by norm_num [cfg80]
  have htrunc : ratTrunc (0 : ℚ) = 0 := by norm_num [ratTrunc]
  have hbob : bobOffset (0 : ℚ) = 0 := by norm_num [bobOffset, ratTrunc]
  have hcoll : ∀ i o : ℕ, checkCollision (mkSimpleFish i o 0 0 0 0 0) 0 0 = true := by
    intro i o
    simp only [checkCollision, mkSimpleFish, Bool.and_eq_true, decide_eq_true_eq]
    rw [hbob]
    norm_num [htrunc, ImagePixelWidth, ImagePixelHeight]
  have hpre : ∀ g ∈ [mkSimpleFish 2 2 0 0 0 0 0],
      ¬ (checkCollision g (((1 : ℤ) - 1) * cfg80.CellWidth)
           (((1 : ℤ) - 1) * cfg80.CellHeight) = true ∧ g.OwnerID = 1) := by
    intro g hg
    simp only [List.mem_singleton] at hg
    subst hg
    rw [hmx, hmy]
    intro hand
    exact absurd hand.2 (by norm_num [mkSimpleFish])
  have hf : checkCollision (mkSimpleFish 1 1 0 0 0 0 0) (((1 : ℤ) - 1) * cfg80.CellWidth)
      (((1 : ℤ) - 1) * cfg80.CellHeight) = true := by
    rw [hmx, hmy]; exact hcoll 1 1
  exact ⟨hpre, hf, rfl,
    (c2_click_ownership cfg80 1 1 1 ⟨fun _ => 0, fun _ => 1, 1, 0, 1⟩
      [mkSimpleFish 2 2 0 0 0 0 0] [] (mkSimpleFish 1 1 0 0 0 0 0) hpre hf rfl).1⟩



theorem uploadChunks_nil (imageID : ℕ) (first : Bool) :
    uploadChunks imageID first [] = [] := by
  rw [uploadChunks]
  simp

theorem uploadChunks_cons (imageID : ℕ) (first : Bool) (l : List Char) (h : l ≠ []) :
    uploadChunks imageID first l =
      { ctrl := if first then FrameCtrl.transmit imageID (decide (4096 < l.length))
                else FrameCtrl.cont (decide (4096 < l.length)),
        payload := l.take 4096 } :: uploadChunks imageID false (l.drop 4096) := by
  rw [uploadChunks]
  simp [h]

theorem uploadChunks_length_pos (imageID : ℕ) (first : Bool) (l : List Char) :
    0 < (uploadChunks imageID first l).length ↔ l ≠ [] := by
  by_cases h : l = []
  · subst h
    rw [uploadChunks_nil]
    simp
  · rw [uploadChunks_cons imageID first l h]
    simp [h]

theorem joinPayloads_uploadChunks (imageID : ℕ) :
    ∀ (n : ℕ) (l : List Char), l.length ≤ n → ∀ (first : Bool),
      joinPayloads (uploadChunks imageID first l) = l := by
  intro n
  induction n with
  | zero =>
    intro l hl first
    have hnil : l = [] := List.length_eq_zero.mp (Nat.le_zero.mp hl)
    subst hnil
    rw [uploadChunks_nil]
    rfl
  | succ n ih =>
    intro l hl first
    by_cases hn : l = []
    · subst hn
      rw [uploadChunks_nil]
      rfl
    · have hlen : 0 < l.length := List.length_pos.mpr hn
      have hdl : (l.drop 4096).length ≤ n := by
        simp only [List.length_drop]
        omega
      rw [uploadChunks_cons imageID first l hn]
      simp only [joinPayloads]
      rw [ih (l.drop 4096) hdl false]
      exact List.take_append_drop 4096 l

theorem uploadChunks_payload_sizes (imageID : ℕ) :
    ∀ (n : ℕ) (l : List Char), l.length ≤ n → ∀ (first : Bool),
      ((uploadChunks imageID first l).dropLast.all
        (fun fr => fr.payload.length == 4096)) = true := by
  intro n
  induction n with
  | zero =>
    intro l hl first
    have hnil : l = [] := List.length_eq_zero.mp (Nat.le_zero.mp hl)
    subst hnil
    rw [uploadChunks_nil]
    rfl
  | succ n ih =>
    intro l hl first
    by_cases hn : l = []
    · subst hn
      rw [uploadChunks_nil]
      rfl
    · have hdl : (l.drop 4096).length ≤ n := by
        have hlen : 0 < l.length := List.length_pos.mpr hn
        simp only [List.length_drop]
        omega
      rw [uploadChunks_cons imageID first l hn]
      by_cases hrest : l.drop 4096 = []
      · rw [hrest, uploadChunks_nil]
        rfl
      · have hrest2 : uploadChunks imageID false (l.drop 4096) ≠ [] := by
          have := (uploadChunks_length_pos imageID false (l.drop 4096)).mpr hrest
          exact List.length_pos.mp this
        rw [List.dropLast_cons_of_ne_nil hrest2]
        have hgt : 4096 < l.length := by
          have := (not_iff_not.mpr List.drop_eq_nil_iff).mp hrest
          omega
        simp only [List.all_cons, ih (l.drop 4096) hdl false, Bool.and_true]
        simp [List.length_take, hgt.le]

theorem uploadChunks_getD_ctrl (imageID : ℕ) :
    ∀ (n : ℕ) (l : List Char), l.length ≤ n → ∀ (first : Bool) (i : ℕ),
      i < (uploadChunks imageID first l).length →
      (((uploadChunks imageID first l).getD i ⟨FrameCtrl.cont false, []⟩).ctrl.isTransmit
          = (first && decide (i = 0))) ∧
      (((uploadChunks imageID first l).getD i ⟨FrameCtrl.cont false, []⟩).ctrl.moreFlag
          = decide (i + 1 < (uploadChunks imageID first l).length)) := by
  intro n
  induction n with
  | zero =>
    intro l hl first i h
    have hnil : l = [] := List.length_eq_zero.mp (Nat.le_zero.mp hl)
    subst hnil
    rw [uploadChunks_nil] at h
    exact absurd h (by simp)
  | succ n ih =>
    intro l hl first i h
    by_cases hn : l = []
    · subst hn
      rw [uploadChunks_nil] at h
      exact absurd h (by simp)
    · have hdl : (l.drop 4096).length ≤ n := by
        have hlen : 0 < l.length := List.length_pos.mpr hn
        simp only [List.length_drop]
        omega
      have hcons := uploadChunks_cons imageID first l hn
      have hlen2 : (uploadChunks imageID first l).length
          = (uploadChunks imageID false (l.drop 4096)).length + 1 := by
        rw [hcons]
        simp
      cases i with
      | zero =>
        constructor
        · rw [hcons, List.getD_cons_zero]
          cases first <;> simp [FrameCtrl.isTransmit]
        · have hhead : ((uploadChunks imageID first l).getD 0
              ⟨FrameCtrl.cont false, []⟩).ctrl.moreFlag = decide (4096 < l.length) := by
            rw [hcons, List.getD_cons_zero]
            cases first <;> simp [FrameCtrl.moreFlag]
          rw [hhead, decide_eq_decide, hlen2]
          constructor
          · intro hgt
            have hrest : l.drop 4096 ≠ [] := by
              rw [ne_eq, List.drop_eq_nil_iff]
              omega
            have := (uploadChunks_length_pos imageID false (l.drop 4096)).mpr hrest
            omega
          · intro hlt
            have hpos : 0 < (uploadChunks imageID false (l.drop 4096)).length := by omega
            have hrest := (uploadChunks_length_pos imageID false (l.drop 4096)).mp hpos
            have := (not_iff_not.mpr List.drop_eq_nil_iff).mp hrest
            omega
      | succ i =>
        have hlt : i < (uploadChunks imageID false (l.drop 4096)).length := by omega
        have hget : (uploadChunks imageID first l).getD (i + 1) ⟨FrameCtrl.cont false, []⟩
            = (uploadChunks imageID false (l.drop 4096)).getD i ⟨FrameCtrl.cont false, []⟩ := by
          rw [hcons, List.getD_cons_succ]
        obtain ⟨h1, h2⟩ := ih (l.drop 4096) hdl false i hlt
        constructor
        · rw [hget, h1]
          simp
        · rw [hget, h2, decide_eq_decide, hlen2]
          omega

/-- Claim C3: the payload chunks of the emitted upload frames concatenate
to exactly the base64 encoding of the buffer; every frame except the last
carries exactly 4096 characters; the first frame and only the first frame
carries the transmit control metadata (later frames carry only the
continuation metadata); and the more-chunks flag is set on every frame
except the last, and cleared on the last. -/
theorem c3_upload_roundtrip (data : List ℕ) (imageID : ℕ) :
    joinPayloads (uploadFrames imageID data) = base64Encode data ∧
    ((uploadFrames imageID data).dropLast.all
      (fun fr => fr.payload.length == 4096)) = true ∧
    (∀ i : Fin (uploadFrames imageID data).length,
      ((uploadFrames imageID data).getD i.val ⟨FrameCtrl.cont false, []⟩).ctrl.isTransmit
        = decide (i.val = 0)) ∧
    (∀ i : Fin (uploadFrames imageID data).length,
      ((uploadFrames imageID data).getD i.val ⟨FrameCtrl.cont false, []⟩).ctrl.moreFlag
        = decide (i.val + 1 < (uploadFrames imageID data).length)) := by
  refine ⟨?_, ?_, ?_, ?_⟩
  · exact joinPayloads_uploadChunks imageID (base64Encode data).length
      (base64Encode data) le_rfl true
  · exact uploadChunks_payload_sizes imageID (base64Encode data).length
      (base64Encode data) le_rfl true
  · intro i
    have h := (uploadChunks_getD_ctrl imageID (base64Encode data).length
      (base64Encode data) le_rfl true i.val i.isLt).1
    simp only [Bool.true_and] at h
    exact h
  · intro i
    exact (uploadChunks_getD_ctrl imageID (base64Encode data).length
      (base64Encode data) le_rfl true i.val i.isLt).2

/-- Claim C7: removing the only registered session while the scheduler is
running (with each table fish tracked by that session, as AddFish
maintains) empties the entity table, unsets the capability, resets the
fish-id counter and stops the scheduler, so the next registration starts a
fresh epoch with fresh negotiation. -/
theorem c7_epoch_reset (s : MState) (c : MConn)
    (hconns : s.conns = [c]) (hanim : s.animationOn = true)
    (hown : ∀ f ∈ s.fish, f.ID ∈ c.fishIDs) :
    removeConnection s c.id =
      { fish := [], conns := [], termConfig := none,
        animationOn := false, fishCounter := 0 } := by
  unfold removeConnection
  rw [hconns]
  have hfind : List.find? (fun c2 => decide (c2.id = c.id)) [c] = some c := by
    simp [List.find?]
  rw [hfind]
  have hfilterConns : List.filter (fun c2 => decide (c2.id ≠ c.id)) [c] = [] := by
    simp [List.filter]
  have hfilterFish : s.fish.filter (fun f => decide (f.ID ∉ c.fishIDs)) = [] := by
    rw [List.filter_eq_nil_iff]
    intro f hf
    simp only [decide_eq_true_eq, Decidable.not_not]
    exact hown f hf
  simp [hfilterConns, hfilterFish, hanim]
  exact hown

/-- Witness for c7_epoch_reset: one session owning one fish, scheduler
running. -/
theorem c7_epoch_reset_witness :
    wstate7.conns = [wconn7] ∧ wstate7.animationOn = true ∧
    (∀ f ∈ wstate7.fish, f.ID ∈ wconn7.fishIDs) ∧
    removeConnection wstate7 wconn7.id =
      { fish := [], conns := [], termConfig := none,
        animationOn := false, fishCounter := 0 } :=
  ⟨rfl, rfl,
   by
     intro f hf
     simp only [wstate7, List.mem_singleton] at hf
     subst hf
     simp [mkSimpleFish, wconn7],
   c7_epoch_reset wstate7 wconn7 rfl rfl
     (by
       intro f hf
       simp only [wstate7, List.mem_singleton] at hf
       subst hf
       simp [mkSimpleFish, wconn7])⟩

/-- Claim C8, counterexample: a capability response of 15 by 32 pixels for
an 8 by 2 character grid.  Rounding 15/8 to the nearest integer gives 2,
but the code's integer division gives cell width 1. -/
theorem c8_counterexample :
    applyPixelResponse (setTerminal newHandler 8 2) 15 32 =
      { termColumns := 8, termRows := 2, cellWidth := 1, cellHeight := 16 } ∧
    specCellSize 15 32 8 2 = (2, 16) ∧ (1 : ℤ) ≠ 2 := by
  refine ⟨?_, ?_, by norm_num⟩
  · have h1 : Int.tdiv 15 8 = 1 := by decide
    have h2 : Int.tdiv 32 2 = 16 := by decide
    rw [applyPixelResponse, if_pos (by norm_num [setTerminal, newHandler])]
    simp [setTerminal, newHandler, h1, h2]
  · simp only [specCellSize, round_eq, Prod.mk.injEq]
    norm_num

/-- Claim C8, amended: for a positive character grid and nonnegative pixel
dimensions, the derived cell size is the floor of pixelDim / characterDim
(Go's truncating integer division), with no rounding to nearest and no
minimum of 1; the character grid itself is unchanged. -/
theorem c8_cell_size_truncation (h : HandlerState) (pixelWidth pixelHeight : ℤ)
    (hc : 0 < h.termColumns) (hr : 0 < h.termRows)
    (hpw : 0 ≤ pixelWidth) (hph : 0 ≤ pixelHeight) :
    (applyPixelResponse h pixelWidth pixelHeight).cellWidth =
      ⌊(pixelWidth : ℚ) / (h.termColumns : ℚ)⌋ ∧
    (applyPixelResponse h pixelWidth pixelHeight).cellHeight =
      ⌊(pixelHeight : ℚ) / (h.termRows : ℚ)⌋ ∧
    (applyPixelResponse h pixelWidth pixelHeight).termColumns = h.termColumns ∧
    (applyPixelResponse h pixelWidth pixelHeight).termRows = h.termRows := by
  have key : ∀ p q : ℤ, 0 ≤ p → 0 < q → p.tdiv q = ⌊(p : ℚ) / (q : ℚ)⌋ := by
    intro p q hp hq
    rw [Int.tdiv_eq_ediv hp (le_of_lt hq)]
    have hq2 : ((q.toNat : ℕ) : ℤ) = q := Int.toNat_of_nonneg (le_of_lt hq)
    rw [← hq2, Int.cast_natCast, Rat.floor_intCast_div_natCast]
  rw [applyPixelResponse, if_pos ⟨hc, hr⟩]
  exact ⟨key pixelWidth h.termColumns hpw hc, key pixelHeight h.termRows hph hr, rfl, rfl⟩

/-- Witness for c8_cell_size_truncation: the 15 by 32 pixel response on an
8 by 2 grid derives cell size floor(15/8) by floor(32/2). -/
theorem c8_cell_size_truncation_witness :
    (0 < (setTerminal newHandler 8 2).termColumns ∧
     0 < (setTerminal newHandler 8 2).termRows ∧
     0 ≤ (15 : ℤ) ∧ 0 ≤ (32 : ℤ)) ∧
    ((applyPixelResponse (setTerminal newHandler 8 2) 15 32).cellWidth =
       ⌊((15 : ℤ) : ℚ) / (((setTerminal newHandler 8 2).termColumns : ℤ) : ℚ)⌋ ∧
     (applyPixelResponse (setTerminal newHandler 8 2) 15 32).cellHeight =
       ⌊((32 : ℤ) : ℚ) / (((setTerminal newHandler 8 2).termRows : ℤ) : ℚ)⌋ ∧
     (applyPixelResponse (setTerminal newHandler 8 2) 15 32).termColumns =
       (setTerminal newHandler 8 2).termColumns ∧
     (applyPixelResponse (setTerminal newHandler 8 2) 15 32).termRows =
       (setTerminal newHandler 8 2).termRows) :=
  ⟨⟨by norm_num [setTerminal, newHandler], by norm_num [setTerminal, newHandler],
    by norm_num, by norm_num⟩,
   c8_cell_size_truncation (setTerminal newHandler 8 2) 15 32
     (by norm_num [setTerminal, newHandler]) (by norm_num [setTerminal, newHandler])
     (by norm_num) (by norm_num)⟩

/-- Claim C9, counterexample: a session whose transport reported a 100 by
50 character grid and that never answers the capability query.  On timeout
the epoch capability keeps that grid with the default 8 by 16 cells, so it
does not equal the documented 80 by 24 default capability. -/
theorem c9_counterexample :
    timeoutConfig (setTerminal newHandler 100 50) =
      { Columns := 100, Rows := 50, CellWidth := 8, CellHeight := 16 } ∧
    ({ Columns := 100, Rows := 50, CellWidth := 8, CellHeight := 16 } : TerminalConfig) ≠
      { Columns := 80, Rows := 24, CellWidth := 8, CellHeight := 16 } := by
  refine ⟨rfl, ?_⟩
  intro h
  have := congrArg TerminalConfig.Columns h
  norm_num at this

/-- Claim C9, amended: on negotiation timeout the cell size falls back to
the default 8 by 16 while the character grid stays whatever the transport
reported (80 by 24 exactly when nothing was ever reported), and fish
spawning proceeds: with a capability present and the session registered,
AddFish returns exactly one new fish id. -/
theorem c9_timeout_defaults :
    (∀ columns rows : ℤ, timeoutConfig (setTerminal newHandler columns rows) =
      { Columns := columns, Rows := rows, CellWidth := 8, CellHeight := 16 }) ∧
    timeoutConfig newHandler =
      { Columns := 80, Rows := 24, CellWidth := 8, CellHeight := 16 } ∧
    (∀ (s : MState) (connID : ℕ) (cfg : TerminalConfig) (c : MConn) (rnd : SpawnRand),
      s.termConfig = some cfg →
      s.conns.find? (fun c2 => decide (c2.id = connID)) = some c →
      (addFish s connID rnd).2 = [s.fishCounter + 1]) := by
  refine ⟨fun columns rows => rfl, rfl, ?_⟩
  intro s connID cfg c rnd h1 h2
  unfold addFish
  rw [h1, h2]

/-- Witness for c9_timeout_defaults: a registered session in a state whose
capability is the default configuration spawns exactly one fish. -/
theorem c9_timeout_defaults_witness :
    wstate9.termConfig = some cfg80 ∧
    wstate9.conns.find? (fun c2 => decide (c2.id = 1)) = some wconn9 ∧
    (addFish wstate9 1 ⟨0, 0, 0, 0, 0⟩).2 = [wstate9.fishCounter + 1] :=
  ⟨rfl, by simp [wstate9, wconn9, List.find?],
   c9_timeout_defaults.2.2 wstate9 1 cfg80 wconn9 ⟨0, 0, 0, 0, 0⟩
     rfl (by simp [wstate9, wconn9, List.find?])⟩
